import Mathlib

/-!
Shallow embedding of `fmriprepgr/reports.py` (fmriprep-group-report).

The source parses per-subject fmriprep HTML reports into rows of metadata
(one row per embedded SVG figure), classifies each row with a `report_type`,
links each subject's figures directory into a new `group` output tree, and
renders consolidated, paginated HTML reports per report type.

Conventions used throughout:
* pandas/NumPy scalar cells are modelled by `Value`; `Value.nan` is the null
  marker (`np.nan`), which is also what a missing DataFrame column yields for
  a row, so a key absent from a row and a key mapped to `Value.nan` are both
  "null" in the pandas sense.
* A DataFrame row (equivalently a Python dict built by `parse_report`) is an
  association list `Row` with insertion-ordered, first-match lookup and
  replace-in-place assignment, mirroring Python dict semantics.
* Filesystem paths are lists of components; the filesystem is a plain record
  of existing paths and symlink paths.  Side effects of `make_report` are
  modelled as an ordered list of `Event`s plus an optional uncaught-exception
  message (Python exceptions abort the run; events already emitted stand).
-/

namespace FPGR

/-- A pandas/NumPy scalar cell.  `nan` models `np.nan`, the null marker used
both for missing entities and for the synthetic null fields. -/
inductive Value where
  | str (s : String)
  | nat (n : Nat)
  | bool (b : Bool)
  | nan
deriving DecidableEq, Repr

/-- How a cell prints inside an f-string (used for group labels in the
consolidated file names; report-type values are entity strings). -/
def Value.label : Value → String
  | .str s => s
  | .nat n => toString n
  | .bool b => toString b
  | .nan => "nan"

/-- A row of the report-elements table: an insertion-ordered association list,
mirroring the Python dict built per figure in `parse_report` (and a DataFrame
row after concatenation, where a missing column reads as NaN). -/
abbrev Row : Type := List (String × Value)

/-- First-match lookup, as for a Python dict key (keys are unique in dicts, so
first match is the match). -/
def rlookup (k : String) : Row → Option Value
  | [] => none
  | (k', v) :: t => if k' = k then some v else rlookup k t

/-- Python dict assignment `row[k] = v`: replace the value in place if the key
exists, otherwise append the new key at the end. -/
def rset : Row → String → Value → Row
  | [], k, v => [(k, v)]
  | (k', v') :: t, k, v => if k' = k then (k', v) :: t else (k', v') :: rset t k v

/-- Reading a cell of the concatenated DataFrame: a key absent from the row is
a NaN cell of that column. -/
def getVal (r : Row) (k : String) : Value :=
  (rlookup k r).getD Value.nan

/-- Reading a cell expected to hold a string (e.g. `row.subject`,
`row.filename` in `make_report`). -/
def getStr (r : Row) (k : String) : String :=
  (getVal r k).label

/-! ## Report Type Classifier (`parse_report`, lines 68–75)

```python
report_elements['report_type'] = report_elements.desc
dseg_ind = report_elements.report_type.isnull() & (report_elements.suffix == 'dseg')
report_elements.loc[dseg_ind, 'report_type'] = report_elements.loc[dseg_ind, 'suffix']
if 'space' in report_elements.columns:
    t1w_ind = report_elements.report_type.isnull() & report_elements.space.notnull()
    report_elements.loc[t1w_ind, 'report_type'] = report_elements.loc[t1w_ind, 'space']
```

The column-wise masks act row by row; `'space' in columns` failing is the same
as every row's `space` cell being NaN, so the per-row function below is the
row-wise reading of the three-rule chain. -/

/-- The derived `report_type` cell of a corpus row. -/
def reportType (r : Row) : Value :=
  if getVal r "desc" ≠ Value.nan then getVal r "desc"
  else if getVal r "suffix" = Value.str "dseg" then getVal r "suffix"
  else if getVal r "space" ≠ Value.nan then getVal r "space"
  else Value.nan

/-- The distinct non-null `report_type` values of the corpus, in first-occurrence
order before sorting.  `reports.groupby('report_type')` excludes rows whose
group key is NaN (pandas drops null keys) — rows left unclassified simply
vanish from the grouped corpus. -/
def uniqueKeepFirst (l : List Value) : List Value :=
  l.foldl (fun acc v => if v ∈ acc then acc else acc ++ [v]) []

/-- Insertion sort by rendered label; pandas `groupby` iterates groups in
ascending key order. -/
def insertByLabel (v : Value) : List Value → List Value
  | [] => [v]
  | w :: t => if v.label ≤ w.label then v :: w :: t else w :: insertByLabel v t

def sortByLabel (l : List Value) : List Value :=
  l.foldr insertByLabel []

/-- The group keys `reports.groupby('report_type')` iterates over: the distinct
non-NaN `report_type` values in ascending order. -/
def groupValuesOf (corpus : List Row) : List Value :=
  sortByLabel (uniqueKeepFirst ((corpus.map reportType).filter (fun v => v ≠ Value.nan)))

/-- The rows of one report-type group, in corpus order. -/
def groupRowsOf (corpus : List Row) (v : Value) : List Row :=
  corpus.filter (fun r => reportType r = v)

/-! ## Pagination (`make_report`, lines 353–361)

```python
if reports_per_page is None:
    rtdf['chunk'] = 0
else:
    rtdf['chunk'] = rtdf.idx // reports_per_page
for chunk, cdf in rtdf.groupby('chunk'):
    ...
    cdf = cdf.reset_index(drop=True).reset_index().drop('idx', axis=1).rename(columns={'index': 'idx'})
```

Within a report-type group the `idx` column is the 0-based position (line 333),
so we keep it positional: `withIdx 0 g` is the table with its `idx` column. -/

/-- The `chunk` cell for a row with index `i` (`None` page size ⇒ single chunk 0,
else integer division). -/
def chunkOf (ps : Option Nat) (i : Nat) : Nat :=
  match ps with
  | none => 0
  | some n => i / n

/-- Pair each row with its 0-based `idx` (the group's `reset_index`). -/
def withIdx (s : Nat) : List α → List (Nat × α)
  | [] => []
  | a :: t => (s, a) :: withIdx (s + 1) t

/-- The rows of chunk `c` of a group, in group order. -/
def chunkRows (ps : Option Nat) (g : List α) (c : Nat) : List α :=
  ((withIdx 0 g).filter (fun p => chunkOf ps p.1 == c)).map Prod.snd

/-- The chunk keys `rtdf.groupby('chunk')` iterates over: the distinct values of
the `chunk` column in ascending order.  The chunk column is nondecreasing in
`idx`, so the distinct values are exactly the occurring keys up to the last
row's chunk. -/
def chunkKeys (ps : Option Nat) (len : Nat) : List Nat :=
  (List.range (chunkOf ps (len - 1) + 1)).filter
    (fun k => (List.range len).any (fun i => chunkOf ps i == k))

/-- The per-chunk local re-indexing (`reset_index` chain at line 360): drop the
group-level `idx` and set it to the 0-based position within the chunk. -/
def rebaseIdx (cdf : List Row) : List Row :=
  (withIdx 0 cdf).map (fun p => rset p.2 "idx" (Value.nat p.1))

/-! ## Report Element Extractor (`parse_report`, lines 29–66)

The document object model as BeautifulSoup with `'html.parser'` exposes it:
tags with a name, an optional `class` attribute, other attributes, and
children; plus bare text nodes (`NavigableString`s).  Under `'html.parser'`
the `class` attribute is multi-valued: `tag.get('class')` is a *list* of
class-name strings, never a single string. -/

inductive Dom where
  | textNode (s : String)
  | tag (name : String) (classes : Option (List String)) (attrs : List (String × String))
      (children : List Dom)

/-- `isinstance(node, Tag)`. -/
def Dom.isTag : Dom → Bool
  | .tag _ _ _ _ => true
  | _ => false

/-- `tag.has_attr('class')`. -/
def Dom.hasClassAttr : Dom → Bool
  | .tag _ (some _) _ _ => true
  | _ => false

/-- The class names of a node (empty for text nodes / absent attribute). -/
def Dom.classesOf : Dom → List String
  | .tag _ (some cs) _ _ => cs
  | _ => []

/-- Non-class attributes, as `tag.get(key)`. -/
def Dom.attr (key : String) : Dom → Option String
  | .tag _ _ attrs _ => attrs.lookup key
  | _ => none

/-- A Python attribute value as `tag.get` returns it: `class` is a list of
strings under `'html.parser'`, other attributes are plain strings. -/
inductive PyVal where
  | pstr (s : String)
  | plist (l : List String)
deriving DecidableEq, Repr

/-- Python `==` between attribute values: equality within one type, and
`False` across `str` and `list` (a list never equals a string). -/
def pyEq : PyVal → PyVal → Bool
  | .pstr a, .pstr b => a == b
  | .plist a, .plist b => a == b
  | _, _ => false

/-- `tag.get('class', default)`: the multi-valued class list when the attribute
is present, the default otherwise. -/
def Dom.getClassAttr (d : Dom) (dflt : PyVal) : PyVal :=
  match d with
  | .tag _ (some cs) _ _ => .plist cs
  | _ => dflt

mutual
/-- `node.text`: the concatenated text of all descendant strings. -/
def Dom.innerText : Dom → String
  | .textNode s => s
  | .tag _ _ _ cs => innerTextList cs
def innerTextList : List Dom → String
  | [] => ""
  | d :: ds => d.innerText ++ innerTextList ds
end

/-- Does a node match `findAll(nm, attrs={'class': cls})`: right tag name and
`cls` among its class names. -/
def matchesTagClass (nm cls : String) (d : Dom) : Bool :=
  match d with
  | .tag n (some cs) _ _ => n == nm && cs.contains cls
  | _ => false

mutual
/-- `parent.findAll(nm, attrs={'class': cls})`: every matching descendant, in
document order. -/
def findDesc (nm cls : String) : Dom → List Dom
  | .textNode _ => []
  | .tag _ _ _ cs => findDescList nm cls cs
def findDescList (nm cls : String) : List Dom → List Dom
  | [] => []
  | d :: ds =>
    (if matchesTagClass nm cls d then [d] else []) ++ findDesc nm cls d ++ findDescList nm cls ds
end

/-- Does a node carry the figure marker, as `soup.findAll(attrs={'class':
'svg-reportlet'})` selects. -/
def isFigNode (d : Dom) : Bool :=
  match d with
  | .tag _ (some cs) _ _ => cs.contains "svg-reportlet"
  | _ => false

/-- One figure node together with the DOM context `parse_report` reads:
`fd.parent` and `fd.previous_siblings` (nearest sibling first). -/
structure FigCtx where
  fig : Dom
  parent : Dom
  prevSiblings : List Dom

def dummyCtx : FigCtx :=
  ⟨Dom.textNode "", Dom.textNode "", []⟩

mutual
/-- All figure nodes of a document with their contexts, in document order
(`soup.findAll` order).  The document root plays the soup object's role: a
top-level figure's `parent` is the whole document. -/
def collectFigs : Dom → List FigCtx
  | .textNode _ => []
  | .tag n c a cs => collectFigsIn (.tag n c a cs) [] cs
def collectFigsIn (parent : Dom) (prevRev : List Dom) : List Dom → List FigCtx
  | [] => []
  | d :: ds =>
    (if isFigNode d then [⟨d, parent, prevRev⟩] else [])
      ++ collectFigs d ++ collectFigsIn parent (d :: prevRev) ds
end

/-- `_unique_retrieval` (lines 78–99): the text of the single element of a
`findAll` result, a `ValueError` if there are zero or several. -/
def uniqueRetrieval (elementList : List Dom) (elemIdentifier searchIdentifier : String) :
    Except String String :=
  if elementList.length > 1 then
    .error s!"{elemIdentifier} has more than one {searchIdentifier}."
  else if elementList.length = 0 then
    .error s!"{elemIdentifier} has no {searchIdentifier}."
  else
    .ok (elementList.headD (Dom.textNode "")).innerText

/-- `np.nan` when no run title has been seen yet, otherwise the remembered
title text. -/
def toTitleVal : Option String → Value
  | none => Value.nan
  | some t => Value.str t

/-- The caption fallback scan (lines 62–64):

```python
for prev in fd.previous_siblings:
    if isinstance(prev, Tag) and prev.has_attr('class') and prev.get('class', '') == 'elem-caption':
        row['elem_caption'] = prev.text
```

The loop walks nearest sibling first and *assigns* on every match with no
`break`, so the last assignment (the farthest matching sibling) would win.
`prev.get('class', '')` is the multi-valued class list whenever `has_attr`
holds, so the Python `==` against the string `'elem-caption'` compares a list
with a string. -/
def captionScan : List Dom → Option String → Option String
  | [], acc => acc
  | prev :: rest, acc =>
    if prev.isTag && prev.hasClassAttr
        && pyEq (prev.getClassAttr (.pstr "")) (.pstr "elem-caption") then
      captionScan rest (some prev.innerText)
    else
      captionScan rest acc

/-- The last path component, `Path(fig_path).parts[-1]`. -/
def lastPathSeg (s : String) : String :=
  (s.splitOn "/").getLastD s

/-- The `try/except` block around the run-title retrieval (lines 49–54): on
success the retrieved text is both stored and remembered, on `ValueError`
the previous run title is reused. -/
def runTitlePart (row2 : Row) (prevRunTitle : Option String) (runTitles : List Dom)
    (elemIdentifier : String) : Row × Option String :=
  match uniqueRetrieval runTitles elemIdentifier "run-title" with
  | .ok t => (rset row2 "run_title" (Value.str t), some t)
  | .error _ => (rset row2 "run_title" (toTitleVal prevRunTitle), prevRunTitle)

/-- The `try/except` block around the caption retrieval (lines 58–64): on
`ValueError` the previous-sibling scan runs; if it assigns nothing, the row
keeps no `elem_caption` key (a NaN cell in the DataFrame). -/
def setCaption (row3 : Row) (elemCaptions : List Dom) (elemIdentifier : String)
    (prevSiblings : List Dom) : Row :=
  match uniqueRetrieval elemCaptions elemIdentifier "elem-caption" with
  | .ok t => rset row3 "elem_caption" (Value.str t)
  | .error _ =>
    match captionScan prevSiblings none with
    | some t => rset row3 "elem_caption" (Value.str t)
    | none => row3

/-- The body of the `for fd in file_divs` loop (lines 38–66) for one figure
node: build the row and return it with the updated `prev_run_title`.
`parseEnt` stands for `layout.parse_file_entities` (the external BIDS
filename grammar, a black-box path-to-entities map). -/
def parseFig (parseEnt : String → Row) (prevRunTitle : Option String) (c : FigCtx) :
    Row × Option String :=
  let figPath := (c.fig.attr "src").getD ((c.fig.attr "data").getD "")
  let row1 := rset (parseEnt figPath) "path" (Value.str figPath)
  let row2 := rset row1 "filename" (Value.str (lastPathSeg figPath))
  let elemIdentifier := s!"Parent div of {figPath}"
  let rt := runTitlePart row2 prevRunTitle (findDesc "h3" "run-title" c.parent) elemIdentifier
  let row4 := setCaption rt.1 (findDesc "p" "elem-caption" c.parent) elemIdentifier c.prevSiblings
  (row4, rt.2)

/-- The whole extraction loop: fold `parseFig` over the figure contexts,
threading `prev_run_title` (initially `np.nan`). -/
def parseLoop (parseEnt : String → Row) (prevRunTitle : Option String) :
    List FigCtx → List Row
  | [] => []
  | c :: rest =>
    (parseFig parseEnt prevRunTitle c).1 :: parseLoop parseEnt (parseFig parseEnt prevRunTitle c).2 rest

/-- `parse_report` on a document: extract every figure row in document order
(classification is the separate per-row `reportType`). -/
def parseReportRows (parseEnt : String → Row) (doc : Dom) : List Row :=
  parseLoop parseEnt none (collectFigs doc)

/-- The text of the unique element of a `findAll` result, if it has exactly
one element (the success case of `_unique_retrieval`). -/
def uniqueTitleOf (l : List Dom) : Option String :=
  match l with
  | [t] => some t.innerText
  | _ => none

/-- The run-title resolution for one figure context as the spec states it:
the text of the parent's unique `h3.run-title` heading, if the parent has
exactly one. -/
def runTitleUnique (c : FigCtx) : Option String :=
  uniqueTitleOf (findDesc "h3" "run-title" c.parent)

/-- How one figure context updates the remembered run title: a unique parent
heading replaces it, otherwise it is kept. -/
def titleStep (acc : Option String) (c : FigCtx) : Option String :=
  match runTitleUnique c with
  | some t => some t
  | none => acc

/-- The most recently remembered run title after a list of figure contexts,
starting from `init`. -/
def lastUniqueTitle (init : Option String) (l : List FigCtx) : Option String :=
  l.foldl titleStep init

/-! ## `_make_report_snippet` (lines 102–146): the per-row JSON state blob -/

/-- Keys excluded from the embedded `subj_qc` JSON blob (line 115). -/
def id_blacklist : List String :=
  ["path", "run_title", "elem_caption", "extension", "filename"]

/-- Keys excluded from the visible header line (line 116). -/
def header_blacklist : List String :=
  id_blacklist ++ ["desc", "report_type", "idx", "chunk"]

/-- The synthetic state fields added to the blob (lines 119–122). -/
def syntheticKeys : List String :=
  ["been_on_screen", "rater", "report", "note"]

/-- The dict serialized into the row's `<script>` blob (lines 117–122):
the row minus the blacklist, plus `been_on_screen = False` and
`rater = report = note = np.nan` — `np.nan` being the null marker
(it is also what the spec's per-field `null` denotes). -/
def idEnts (row : Row) : Row :=
  let filtered := row.filter (fun kv => !id_blacklist.contains kv.1)
  rset (rset (rset (rset filtered "been_on_screen" (Value.bool false))
    "rater" Value.nan) "report" Value.nan) "note" Value.nan

/-! ## Filesystem model and `make_report` (lines 149–368)

Paths are component lists (`pathlib.Path.parts`).  `Path.exists` resolves
`..` components; we model that resolution (symlink-free) with `normalize`.
The filesystem records existing paths and symlink paths; a dangling symlink
is in `links` but not in `files` (`exists()` is false, `is_symlink()` true). -/

abbrev Path' : Type := List String

/-- Resolve `..` components against the prefix (as `exists()` does on the
constructed relative paths; no symlink traversal). -/
def normalize (p : Path') : Path' :=
  p.foldl (fun acc c => if c = ".." then acc.dropLast else acc ++ [c]) ([] : List String)

structure FS where
  files : List Path'
  links : List Path'

def existsP (fs : FS) (p : Path') : Prop :=
  normalize p ∈ fs.files

instance (fs : FS) (p : Path') : Decidable (existsP fs p) := by
  unfold existsP; infer_instance

def isLink (fs : FS) (p : Path') : Prop :=
  normalize p ∈ fs.links

instance (fs : FS) (p : Path') : Decidable (isLink fs p) := by
  unfold isLink; infer_instance

/-- `expected_subj_fig_dir.relative_to(fmriprep_output_path)` — the source only
ever calls it with the base an actual prefix. -/
def relativeTo (p base : Path') : Path' :=
  p.drop base.length

/-- `path_to_figures.format(subject=subject)`. -/
def formatSubject (tpl subject : String) : String :=
  tpl.replace "\x7bsubject\x7d" subject

/-- A relative-path string as path components. -/
def strToPath (s : String) : Path' :=
  s.splitOn "/"

/-- Render a path for an error message, as `pathlib` prints it. -/
def pathStr (p : Path') : String :=
  String.intercalate "/" p

/-- Zero-pad to three digits, `f'{chunk:03d}'`. -/
def pad3 (n : Nat) : String :=
  let s := toString n
  if s.length < 3 then String.mk (List.replicate (3 - s.length) '0') ++ s.toList.asString
  else s

/-- `f'consolidated_{report_type}_{chunk:03d}.html'`. -/
def consolidatedName (label : String) (c : Nat) : String :=
  s!"consolidated_{label}_{pad3 c}.html"

/-- The filesystem side effects of a run, in program order.  `symlink tgt lnk`
creates a symlink at `lnk` with (relative) target `tgt`; `transform` is one of
the three opaque in-place image edits. -/
inductive Event where
  | mkdir (p : Path')
  | writeFile (p : Path')
  | symlink (target : Path') (link : Path')
  | copytree (src : Path') (dst : Path')
  | transform (p : Path') (kind : String)
deriving DecidableEq, Repr

/-- Mutation-mode validation (lines 236–254): with all three option tuples
empty there are no image changes; otherwise the three sets must be pairwise
disjoint, in the order the source checks them.  Returns `image_changes`. -/
def checkImageChanges (flip_images drop_background drop_foreground : List String) :
    Except String Bool :=
  if flip_images.isEmpty && drop_background.isEmpty && drop_foreground.isEmpty then
    .ok false
  else if !(flip_images.inter drop_foreground).isEmpty then
    .error (s!"Each report type may only be modified in a single way. " ++
      s!"{flip_images.inter drop_foreground} is specified for both flip_images and drop_foreground.")
  else if !(flip_images.inter drop_background).isEmpty then
    .error (s!"Each report type may only be modified in a single way. " ++
      s!"{flip_images.inter drop_background} is specified for both flip_images and drop_background.")
  else if !(drop_foreground.inter drop_background).isEmpty then
    .error (s!"Each report type may only be modified in a single way. " ++
      s!"{drop_foreground.inter drop_background} is specified for both drop_foreground and drop_background.")
  else
    .ok true

/-- One discovered subject report: its path, the subject entity the external
BIDS grammar parses from the path, and the rows `parse_report` returns for it
(the parsed document, via `parseReportRows`). -/
structure SubjectInput where
  reportPath : Path'
  subject : String
  rows : List Row
deriving DecidableEq

/-- The outcome of a processing step: the events it performed (in order, also
when it then aborts), the uncaught exception if it aborted, and the resulting
filesystem. -/
structure StepResult where
  events : List Event
  err : Option String
  fs : FS

/-- `copytree src dst` makes every path under `src` exist under `dst`
(real files, not symlinks). -/
def copytreeFS (fs : FS) (src dst : Path') : FS :=
  let s := normalize src
  let d := normalize dst
  { fs with files := fs.files ++ [d] ++
      fs.files.filterMap (fun p =>
        if s.isPrefixOf p ∧ p ≠ s then some (d ++ p.drop s.length) else none) }

/-- Overwrite check and link/copy step (lines 320–326), shared by both
figure-directory resolution branches. -/
def finishLink (fs : FS) (subjGroupDir subjGroupFigDir origFigDir : Path')
    (imageChanges : Bool) (evs : List Event) : StepResult :=
  if isLink fs subjGroupFigDir ∨ existsP fs subjGroupFigDir then
    { events := evs,
      err := some (s!"{pathStr subjGroupFigDir} exists and would be overwritten. " ++
        "Rename or delete the existing group directory before running fmriprepgr."),
      fs := fs }
  else if imageChanges then
    { events := evs ++ [Event.copytree (subjGroupDir ++ origFigDir) subjGroupFigDir],
      err := none,
      fs := copytreeFS fs (subjGroupDir ++ origFigDir) subjGroupFigDir }
  else
    { events := evs ++ [Event.symlink origFigDir subjGroupFigDir],
      err := none,
      fs := { files :=
                if existsP fs (subjGroupDir ++ origFigDir) then
                  fs.files ++ [normalize subjGroupFigDir]
                else fs.files,
              links := fs.links ++ [normalize subjGroupFigDir] } }

/-- The per-subject body of the report loop (lines 291–326): create the
subject's group directory, resolve the source figures directory (inferred or
from the template), and link or copy it into place. -/
def processSubject (fs : FS) (fmriprep_output_path group_dir : Path')
    (path_to_figures : Option String) (imageChanges : Bool) (s : SubjectInput) :
    StepResult :=
  let subjGroupDir := group_dir ++ ["sub-" ++ s.subject]
  let subjGroupFigDir := subjGroupDir ++ ["figures"]
  let mkdirEv := Event.mkdir subjGroupDir
  let fs1 : FS := { fs with files := fs.files ++ [normalize subjGroupDir] }
  match path_to_figures with
  | none =>
    let expectedSubjFigDir := s.reportPath.dropLast ++ ["sub-" ++ s.subject, "figures"]
    -- Lines 299–303: when `expectedSubjFigDir` does not exist the source
    -- CONSTRUCTS `FileNotFoundError(...)` but never raises it, so execution
    -- continues unconditionally.  We keep the (unused) message for fidelity.
    let _unraisedError : Option String :=
      if ¬ existsP fs1 expectedSubjFigDir then
        some (s!"path_to_figures was not specified and the subject figures dir for sub-{s.subject}" ++
          " was not at the expected location: \x7bexpected_subj_fig_dir\x7d. Please use " ++
          " path_to_figures to specify the correct relative path from the group dir to the" ++
          " subject figures directory.")
      else none
    let goodParts := relativeTo expectedSubjFigDir fmriprep_output_path
    let lvlsDown := (relativeTo subjGroupFigDir fmriprep_output_path).length - 1
    let origFigDir : Path' := List.replicate lvlsDown ".." ++ goodParts
    finishLink fs1 subjGroupDir subjGroupFigDir origFigDir imageChanges [mkdirEv]
  | some tpl =>
    let origFigDir := strToPath (formatSubject tpl s.subject)
    if ¬ existsP fs1 (subjGroupDir ++ origFigDir) then
      { events := [mkdirEv],
        err := some (s!"path_to_figures is not correct. Based on {tpl}, " ++
          s!"{pathStr (subjGroupFigDir ++ origFigDir)} should exist, but it does not."),
        fs := fs1 }
    else
      finishLink fs1 subjGroupDir subjGroupFigDir origFigDir imageChanges [mkdirEv]

/-- The report loop over all discovered subject reports, stopping at the first
uncaught exception (lines 287–326). -/
def runSubjects (fs : FS) (fmriprep_output_path group_dir : Path')
    (path_to_figures : Option String) (imageChanges : Bool) :
    List SubjectInput → StepResult
  | [] => { events := [], err := none, fs := fs }
  | s :: rest =>
    let r := processSubject fs fmriprep_output_path group_dir path_to_figures imageChanges s
    match r.err with
    | some e => { events := r.events, err := some e, fs := r.fs }
    | none =>
      let r' := runSubjects r.fs fmriprep_output_path group_dir path_to_figures imageChanges rest
      { events := r.events ++ r'.events, err := r'.err, fs := r'.fs }

/-- The image-mutation pass over one report-type group (lines 338–351): check
each copied image exists and is not a symlink, then transform it in place. -/
def mutatePhase (fs : FS) (group_dir : Path') (flip_images drop_foreground drop_background : List String)
    (label : String) : List Row → List Event × Option String
  | [] => ([], none)
  | r :: rest =>
    let imagePath := group_dir ++ ["sub-" ++ getStr r "subject", "figures", getStr r "filename"]
    if ¬ existsP fs imagePath then
      ([], some (s!"Something has gone wrong, {pathStr imagePath} " ++
        "does not exist, but should."))
    else if isLink fs imagePath then
      ([], some (s!"Something has gone wrong, {pathStr imagePath} " ++
        "is a symlink, but should have been copied."))
    else
      let ev := Event.transform imagePath
        (if flip_images.contains label then "flip"
         else if drop_foreground.contains label then "drop foreground"
         else "drop background")
      let m := mutatePhase fs group_dir flip_images drop_foreground drop_background label rest
      (ev :: m.1, m.2)

/-- One report-type group (lines 331–368): optional mutation pass, then one
consolidated HTML document written per chunk.  The sibling TSV name
`consolidated_{report_type}_{chunk:03d}.tsv` is only passed into the page head
(`_generate_html_head(dl_file_name)`) as the client-side download target —
no TSV file is written. -/
def renderGroupMut (fs : FS) (group_dir : Path') (imageChanges : Bool)
    (flip_images drop_background drop_foreground : List String)
    (label : String) (rows : List Row) : List Event × Option String :=
  if imageChanges &&
      (flip_images.contains label || drop_foreground.contains label ||
        drop_background.contains label) then
    mutatePhase fs group_dir flip_images drop_foreground drop_background label rows
  else ([], none)

def renderGroup (fs : FS) (group_dir : Path') (ps : Option Nat) (imageChanges : Bool)
    (flip_images drop_background drop_foreground : List String)
    (v : Value) (rows : List Row) : List Event × Option String :=
  let m := renderGroupMut fs group_dir imageChanges flip_images drop_background drop_foreground
    v.label rows
  match m.2 with
  | some e => (m.1, some e)
  | none =>
    (m.1 ++ (chunkKeys ps rows.length).map
      (fun c => Event.writeFile (group_dir ++ [consolidatedName v.label c])), none)

/-- All report-type groups in groupby order, stopping at the first uncaught
exception. -/
def renderGroups (fs : FS) (group_dir : Path') (ps : Option Nat) (imageChanges : Bool)
    (flip_images drop_background drop_foreground : List String)
    (corpus : List Row) : List Value → List Event × Option String
  | [] => ([], none)
  | v :: vs =>
    let g := renderGroup fs group_dir ps imageChanges flip_images drop_background drop_foreground
      v (groupRowsOf corpus v)
    match g.2 with
    | some e => (g.1, some e)
    | none =>
      let g' := renderGroups fs group_dir ps imageChanges flip_images drop_background
        drop_foreground corpus vs
      (g.1 ++ g'.1, g'.2)

/-- Reports found under the output root whose path does not pass through a
`figures` directory (lines 285–288). -/
def discoveredSubjects (subjects : List SubjectInput) : List SubjectInput :=
  subjects.filter (fun s => !s.reportPath.contains "figures")

/-- The concatenated corpus (line 328). -/
def corpusOf (subjects : List SubjectInput) : List Row :=
  ((discoveredSubjects subjects).map SubjectInput.rows).flatten

/-- Lines 258–283: the group directory is made (`exist_ok=True`) and
`dataset_description.json` is written, before any subject is processed. -/
def preEvents (fmriprep_output_path : Path') : List Event :=
  [Event.mkdir (fmriprep_output_path ++ ["group"]),
   Event.writeFile (fmriprep_output_path ++ ["group"] ++ ["dataset_description.json"])]

/-- The filesystem after the group mkdir and the dataset-description write. -/
def preFS (fs : FS) (fmriprep_output_path : Path') : FS :=
  { fs with files := fs.files ++
      [normalize (fmriprep_output_path ++ ["group"]),
       normalize (fmriprep_output_path ++ ["group"] ++ ["dataset_description.json"])] }

/-- The body of `make_report` after mutation validation succeeded. -/
def makeReportOk (fs : FS) (fmriprep_output_path : Path') (reports_per_page : Option Nat)
    (path_to_figures : Option String)
    (flip_images drop_background drop_foreground : List String)
    (imageChanges : Bool) (subjects : List SubjectInput) : List Event × Option String :=
  let r := runSubjects (preFS fs fmriprep_output_path) fmriprep_output_path
    (fmriprep_output_path ++ ["group"]) path_to_figures imageChanges
    (discoveredSubjects subjects)
  match r.err with
  | some e => (preEvents fmriprep_output_path ++ r.events, some e)
  | none =>
    let rr := renderGroups r.fs (fmriprep_output_path ++ ["group"]) reports_per_page imageChanges
      flip_images drop_background drop_foreground (corpusOf subjects)
      (groupValuesOf (corpusOf subjects))
    (preEvents fmriprep_output_path ++ r.events ++ rr.1, rr.2)

/-- `make_report` (lines 167–368) as a trace of filesystem events plus an
optional uncaught exception.  `subjects` carries the sorted `sub-*.html`
discovery results together with each report's parsed rows (parsing itself is
`parseReportRows`; the BIDS entity grammar is external). -/
def makeReport (fs : FS) (fmriprep_output_path : Path') (reports_per_page : Option Nat)
    (path_to_figures : Option String)
    (flip_images drop_background drop_foreground : List String)
    (subjects : List SubjectInput) : List Event × Option String :=
  match checkImageChanges flip_images drop_background drop_foreground with
  | .error e => ([], some e)
  | .ok imageChanges =>
    makeReportOk fs fmriprep_output_path reports_per_page path_to_figures
      flip_images drop_background drop_foreground imageChanges subjects

/-! ## Concrete sample inputs used by individual theorems -/

/-- A row the three-rule chain cannot classify: no `desc`, `suffix ≠ 'dseg'`,
no `space`. -/
def rowBadC1 : Row :=
  [("subject", Value.str "01"), ("suffix", Value.str "bold"), ("filename", Value.str "b.svg")]

/-- A normally classified companion row (so the `desc` column exists). -/
def rowGoodC1 : Row :=
  [("subject", Value.str "01"), ("desc", Value.str "reconall"), ("filename", Value.str "a.svg")]

def subjectC1 : SubjectInput :=
  ⟨["fmriprep", "sub-01.html"], "01", [rowGoodC1, rowBadC1]⟩

def fsC1 : FS :=
  ⟨[["fmriprep"], ["fmriprep", "sub-01.html"], ["fmriprep", "sub-01", "figures"]], []⟩

/-- An fmriprep tree whose `sub-01/figures` directory is missing. -/
def fsC2 : FS :=
  ⟨[["fmriprep"], ["fmriprep", "sub-01.html"]], []⟩

def subjectC2 : SubjectInput :=
  ⟨["fmriprep", "sub-01.html"], "01",
    [[("subject", Value.str "01"), ("desc", Value.str "reconall"), ("filename", Value.str "a.svg")]]⟩

/-- A complete single-subject tree for a run that succeeds. -/
def fsC3 : FS :=
  ⟨[["fmriprep"], ["fmriprep", "sub-01.html"], ["fmriprep", "sub-01", "figures"]], []⟩

def subjectC3 : SubjectInput :=
  ⟨["fmriprep", "sub-01.html"], "01",
    [[("subject", Value.str "01"), ("desc", Value.str "reconall"), ("filename", Value.str "a.svg")]]⟩

/-- A document whose figure node's parent holds two `p.elem-caption` nodes
(ambiguous parent lookup) and whose previous siblings therefore include
caption-class nodes the fallback scan walks. -/
def docC4 : Dom :=
  .tag "body" none [] [
    .tag "div" (some ["rpt"]) [] [
      .tag "p" (some ["elem-caption"]) [] [.textNode "first caption"],
      .tag "p" (some ["elem-caption"]) [] [.textNode "second caption"],
      .tag "object" (some ["svg-reportlet"]) [("data", "figures/sub-01_desc-aroma_bold.svg")] []
    ]
  ]

def rowC5 : Row :=
  [("subject", Value.str "01"), ("desc", Value.str "reconall"), ("report_type", Value.str "reconall"),
   ("idx", Value.nat 3), ("path", Value.str "sub-01/figures/a.svg"), ("filename", Value.str "a.svg")]

/-- `len` distinct rows standing for one report-type group. -/
def sampleRowsC6 (len : Nat) : List Row :=
  (List.range len).map (fun i => [("subject", Value.nat i)])

/-- Two figure contexts: the first with a unique `h3.run-title` heading in its
parent, the second with none. -/
def ctxC7a : FigCtx :=
  ⟨.tag "object" (some ["svg-reportlet"]) [("data", "figures/a.svg")] [],
   .tag "div" (some ["rpt"]) [] [
     .tag "h3" (some ["run-title"]) [] [.textNode "Run A"],
     .tag "object" (some ["svg-reportlet"]) [("data", "figures/a.svg")] []],
   []⟩

def ctxC7b : FigCtx :=
  ⟨.tag "object" (some ["svg-reportlet"]) [("src", "figures/b.svg")] [],
   .tag "div" (some ["rpt"]) [] [
     .tag "object" (some ["svg-reportlet"]) [("src", "figures/b.svg")] []],
   []⟩

def ctxsC7 : List FigCtx := [ctxC7a, ctxC7b]

/-- A tree whose group directory already holds `sub-01/figures`. -/
def fsC9 : FS :=
  ⟨[["fmriprep"], ["fmriprep", "sub-01.html"], ["fmriprep", "sub-01", "figures"],
    ["fmriprep", "group"], ["fmriprep", "group", "sub-01"], ["fmriprep", "group", "sub-01", "figures"]],
   []⟩

def subjectC9 : SubjectInput :=
  ⟨["fmriprep", "sub-01.html"], "01",
    [[("subject", Value.str "01"), ("desc", Value.str "reconall"), ("filename", Value.str "a.svg")]]⟩

/-- Like `fsC9` but the stale entry is a dangling symlink. -/
def fsC10 : FS :=
  ⟨[["fmriprep"], ["fmriprep", "sub-01.html"], ["fmriprep", "sub-01", "figures"],
    ["fmriprep", "group"], ["fmriprep", "group", "sub-01"]],
   [["fmriprep", "group", "sub-01", "figures"]]⟩

def subjectC10 : SubjectInput :=
  ⟨["fmriprep", "sub-01.html"], "01",
    [[("subject", Value.str "01"), ("desc", Value.str "reconall"), ("filename", Value.str "a.svg")]]⟩

end FPGR

/-! # Theorems -/

namespace FPGR

/-! ## Association-list lemmas for `rlookup` / `rset` -/

theorem rlookup_rset_self (r : Row) (k : String) (v : Value) :
    rlookup k (rset r k v) = some v := by
  induction r with
  | nil => simp [rset, rlookup]
  | cons kv t ih =>
    obtain ⟨k', v'⟩ := kv
    by_cases h : k' = k
  <;> simp [rset, rlookup, h, ih]

theorem rlookup_rset_ne (r : Row) (k k' : String) (v : Value) (h : k' ≠ k) :
    rlookup k (rset r k' v) = rlookup k r := by
  induction r with
  | nil => simp [rset, rlookup, h]
  | cons kv t ih =>
    obtain ⟨k₀, v₀⟩ := kv
    by_cases h0 : k₀ = k'
    · subst h0
      simp [rset, rlookup, h]
    · simp only [rset, if_neg h0]
      by_cases h1 : k₀ = k
      · simp [rlookup, h1]
      · simp [rlookup, h1, ih]

theorem rlookup_filter_key (r : Row) (p : String → Bool) (k : String) (hp : p k = true) :
    rlookup k (r.filter (fun kv => p kv.1)) = rlookup k r := by
  induction r with
  | nil => simp [rlookup]
  | cons kv t ih =>
    obtain ⟨k₀, v₀⟩ := kv
    by_cases h0 : k₀ = k
    · subst h0
      simp [List.filter, rlookup, hp, ih]
    · by_cases hp0 : p k₀ = true
    <;> simp [List.filter, rlookup, h0, hp0, ih]

theorem rlookup_isSome_rset (r : Row) (k k' : String) (v : Value) :
    (rlookup k (rset r k' v)).isSome = true →
      k = k' ∨ (rlookup k r).isSome = true := by
  by_cases h : k = k'
  · exact fun _ => Or.inl h
  · intro hs
    right
    rwa [rlookup_rset_ne r k k' v (fun he => h he.symm)] at hs

theorem rlookup_filter_isSome (r : Row) (p : String → Bool) (k : String)
    (h : (rlookup k (r.filter (fun kv => p kv.1))).isSome = true) :
    (rlookup k r).isSome = true ∧ p k = true := by
  induction r with
  | nil => simp [rlookup] at h
  | cons kv t ih =>
    obtain ⟨k₀, v₀⟩ := kv
    by_cases hp0 : p k₀ = true
    · by_cases h0 : k₀ = k
      · subst h0
        simp [rlookup, hp0]
      · simp only [List.filter, hp0, rlookup, h0, if_false] at h
        rcases ih (by simpa [hp0] using h) with ⟨h1, h2⟩
        simp [rlookup, h0, h1, h2]
    · by_cases h0 : k₀ = k
      · subst h0
        simp only [List.filter, rlookup] at h
        rcases ih (by simpa [hp0] using h) with ⟨h1, h2⟩
        exact absurd h2 (by simpa using hp0)
      · simp only [List.filter, rlookup] at h
        rcases ih (by simpa [hp0] using h) with ⟨h1, h2⟩
        simp [rlookup, h0, h1, h2]

/-- C5.  The per-row `subj_qc` JSON state blob round-trips every row key
outside the exclusion set {path, run_title, elem_caption, extension,
filename} with an equal value, and carries exactly the synthetic fields
`been_on_screen = False`, `rater = report = note = np.nan` (the null marker)
on top of the surviving row keys. -/
theorem snippet_blob_state (row : Row) (k : String)
    (h1 : k ∉ id_blacklist) (h2 : k ∉ syntheticKeys) :
    rlookup k (idEnts row) = rlookup k row ∧
    rlookup "been_on_screen" (idEnts row) = some (Value.bool false) ∧
    rlookup "rater" (idEnts row) = some Value.nan ∧
    rlookup "note" (idEnts row) = some Value.nan ∧
    rlookup "report" (idEnts row) = some Value.nan ∧
    (∀ k', (rlookup k' (idEnts row)).isSome = true →
      ((rlookup k' row).isSome = true ∧ k' ∉ id_blacklist) ∨ k' ∈ syntheticKeys) := by
  have hb : k ≠ "been_on_screen" := by simp [syntheticKeys] at h2; tauto
  have hr : k ≠ "rater" := by simp [syntheticKeys] at h2; tauto
  have hp : k ≠ "report" := by simp [syntheticKeys] at h2; tauto
  have hn : k ≠ "note" := by simp [syntheticKeys] at h2; tauto
  refine ⟨?_, ?_, ?_, ?_, ?_, ?_⟩
  · rw [idEnts]
    rw [rlookup_rset_ne _ _ _ _ (fun h => hn h.symm),
        rlookup_rset_ne _ _ _ _ (fun h => hp h.symm),
        rlookup_rset_ne _ _ _ _ (fun h => hr h.symm),
        rlookup_rset_ne _ _ _ _ (fun h => hb h.symm)]
    exact rlookup_filter_key row (fun x => !id_blacklist.contains x) k
      (by simpa [id_blacklist] using h1)
  · rw [idEnts]
    rw [rlookup_rset_ne _ _ _ _ (by decide), rlookup_rset_ne _ _ _ _ (by decide),
        rlookup_rset_ne _ _ _ _ (by decide)]
    exact rlookup_rset_self _ _ _
  · rw [idEnts]
    rw [rlookup_rset_ne _ _ _ _ (by decide), rlookup_rset_ne _ _ _ _ (by decide)]
    exact rlookup_rset_self _ _ _
  · rw [idEnts]
    exact rlookup_rset_self _ _ _
  · rw [idEnts]
    rw [rlookup_rset_ne _ _ _ _ (by decide)]
    exact rlookup_rset_self _ _ _
  · intro k' hk'
    rw [idEnts] at hk'
    rcases rlookup_isSome_rset _ _ _ _ hk' with h | hk'
    · exact Or.inr (by simp [syntheticKeys, h])
    rcases rlookup_isSome_rset _ _ _ _ hk' with h | hk'
    · exact Or.inr (by simp [syntheticKeys, h])
    rcases rlookup_isSome_rset _ _ _ _ hk' with h | hk'
    · exact Or.inr (by simp [syntheticKeys, h])
    rcases rlookup_isSome_rset _ _ _ _ hk' with h | hk'
    · exact Or.inr (by simp [syntheticKeys, h])
    rcases rlookup_filter_isSome row (fun x => !id_blacklist.contains x) k' hk' with ⟨hs, hpk⟩
    exact Or.inl ⟨hs, by simpa [id_blacklist] using hpk⟩

theorem snippet_blob_state_witness :
    ("subject" ∉ id_blacklist ∧ "subject" ∉ syntheticKeys) ∧
    (rlookup "subject" (idEnts rowC5) = rlookup "subject" rowC5 ∧
     rlookup "been_on_screen" (idEnts rowC5) = some (Value.bool false) ∧
     rlookup "rater" (idEnts rowC5) = some Value.nan ∧
     rlookup "note" (idEnts rowC5) = some Value.nan ∧
     rlookup "report" (idEnts rowC5) = some Value.nan ∧
     (∀ k', (rlookup k' (idEnts rowC5)).isSome = true →
       ((rlookup k' rowC5).isSome = true ∧ k' ∉ id_blacklist) ∨ k' ∈ syntheticKeys)) :=
  ⟨⟨by decide, by decide⟩, snippet_blob_state rowC5 "subject" (by decide) (by decide)⟩

end FPGR

namespace FPGR

/-! ## Pagination lemmas (C6) -/

theorem withIdx_map_snd (l : List α) : ∀ s, (withIdx s l).map Prod.snd = l := by
  induction l with
  | nil => intro s; rfl
  | cons a t ih => intro s; simp [withIdx, ih]

theorem withIdx_append (l₁ l₂ : List α) :
    ∀ s, withIdx s (l₁ ++ l₂) = withIdx s l₁ ++ withIdx (s + l₁.length) l₂ := by
  induction l₁ with
  | nil => intro s; simp [withIdx]
  | cons a t ih =>
    intro s
    show (s, a) :: withIdx (s + 1) (t ++ l₂)
        = ((s, a) :: withIdx (s + 1) t) ++ withIdx (s + (t.length + 1)) l₂
    rw [ih (s + 1), List.cons_append, show s + 1 + t.length = s + (t.length + 1) by omega]

theorem mem_withIdx_bounds (l : List α) :
    ∀ s p, p ∈ withIdx s l → s ≤ p.1 ∧ p.1 < s + l.length := by
  induction l with
  | nil => intro s p h; simp [withIdx] at h
  | cons a t ih =>
    intro s p h
    simp only [withIdx, List.mem_cons] at h
    rcases h with h | h
    · subst h; simp
    · rcases ih (s + 1) p h with ⟨h1, h2⟩
      simp only [List.length_cons]
      omega

theorem filter_chunk_zero (n : Nat) (hn : 0 < n) (l : List α) :
    ∀ s, ((withIdx s l).filter (fun p => p.1 / n == 0)).map Prod.snd
      = l.take (n - s) := by
  induction l with
  | nil => intro s; simp [withIdx]
  | cons a t ih =>
    intro s
    by_cases hs : s < n
    · have hdiv : s / n = 0 := Nat.div_eq_of_lt hs
      have harith : n - s = (n - (s + 1)) + 1 := by omega
      simp [withIdx, List.filter_cons, hdiv, ih, harith]
    · have hdiv : s / n ≠ 0 := by
        have h1 : 1 ≤ s / n := (Nat.one_le_div_iff hn).mpr (by omega)
        omega
      have h0 : n - s = 0 := by omega
      have h1 : n - (s + 1) = 0 := by omega
      simp [withIdx, List.filter_cons, hdiv, ih, h0, h1]

theorem filter_chunk_shift (n : Nat) (hn : 0 < n) (l : List α) :
    ∀ s c, ((withIdx (s + n) l).filter (fun p => p.1 / n == c + 1)).map Prod.snd
      = ((withIdx s l).filter (fun p => p.1 / n == c)).map Prod.snd := by
  induction l with
  | nil => intro s c; simp [withIdx]
  | cons a t ih =>
    intro s c
    have hdiv : (s + n) / n = s / n + 1 := Nat.add_div_right s hn
    have hnext : s + n + 1 = (s + 1) + n := by omega
    by_cases hc : s / n = c
    · simp [withIdx, List.filter_cons, hdiv, hc, hnext, ih]
    · have hc1 : ¬ (s / n + 1 = c + 1) := by omega
      simp [withIdx, List.filter_cons, hdiv, hc, hc1, hnext, ih]

theorem chunkRows_zero_take (n : Nat) (hn : 0 < n) (g : List α) :
    chunkRows (some n) g 0 = g.take n := by
  have h := filter_chunk_zero n hn g 0
  simpa [chunkRows, chunkOf] using h

theorem chunkRows_succ_drop (n : Nat) (hn : 0 < n) (g : List α) (c : Nat) :
    chunkRows (some n) g (c + 1) = chunkRows (some n) (g.drop n) c := by
  rcases Nat.le_total n g.length with h | h
  · have hlen : (g.take n).length = n := by simp [List.length_take]; omega
    have hfirst : (withIdx 0 (g.take n)).filter (fun p => p.1 / n == c + 1) = [] := by
      apply List.filter_eq_nil_iff.mpr
      intro p hp
      have hb := mem_withIdx_bounds (g.take n) 0 p hp
      have hdiv : p.1 / n = 0 := Nat.div_eq_of_lt (by omega)
      simp [hdiv]
    calc chunkRows (some n) g (c + 1)
        = ((withIdx 0 (g.take n ++ g.drop n)).filter
            (fun p => p.1 / n == c + 1)).map Prod.snd := by
          rw [List.take_append_drop]
          simp [chunkRows, chunkOf]
      _ = ((withIdx (0 + n) (g.drop n)).filter
            (fun p => p.1 / n == c + 1)).map Prod.snd := by
          rw [withIdx_append, List.filter_append, List.map_append, hfirst, hlen]
          simp
      _ = chunkRows (some n) (g.drop n) c := by
          rw [filter_chunk_shift n hn (g.drop n) 0 c]
          simp [chunkRows, chunkOf]
  · have hd : g.drop n = [] := List.drop_eq_nil_of_le h
    have hall : (withIdx 0 g).filter (fun p => p.1 / n == c + 1) = [] := by
      apply List.filter_eq_nil_iff.mpr
      intro p hp
      have hb := mem_withIdx_bounds g 0 p hp
      have hdiv : p.1 / n = 0 := Nat.div_eq_of_lt (by omega)
      simp [hdiv]
    rw [hd]
    simp [chunkRows, chunkOf, hall, withIdx]

theorem chunkKeys_range (n : Nat) (hn : 0 < n) (len : Nat) (hlen : 0 < len) :
    chunkKeys (some n) len = List.range ((len - 1) / n + 1) := by
  unfold chunkKeys
  apply List.filter_eq_self.mpr
  intro k hk
  rw [List.mem_range] at hk
  apply List.any_eq_true.mpr
  refine ⟨k * n, ?_, ?_⟩
  · rw [List.mem_range]
    have h1 : k ≤ (len - 1) / n := by
      simp only [chunkOf] at hk
      omega
    have h2 : k * n ≤ (len - 1) / n * n := Nat.mul_le_mul_right n h1
    have h3 : (len - 1) / n * n ≤ len - 1 := Nat.div_mul_le_self (len - 1) n
    omega
  · simp [chunkOf, Nat.mul_div_cancel k hn]

theorem chunkKeys_len_zero (ps : Option Nat) : chunkKeys ps 0 = [] := by
  unfold chunkKeys
  apply List.filter_eq_nil_iff.mpr
  intro k hk
  simp

theorem chunkKeys_none_single (len : Nat) (h : 0 < len) : chunkKeys none len = [0] := by
  unfold chunkKeys
  have h1 : chunkOf none (len - 1) + 1 = 1 := rfl
  rw [h1, show List.range 1 = [0] from rfl]
  have h2 : ((List.range len).any (fun i => chunkOf none i == 0)) = true := by
    apply List.any_eq_true.mpr
    exact ⟨0, List.mem_range.mpr h, by simp [chunkOf]⟩
  simp [h2]

theorem chunkRows_none_all (g : List α) : chunkRows none g 0 = g := by
  unfold chunkRows
  have h : (withIdx 0 g).filter (fun p => chunkOf none p.1 == 0) = withIdx 0 g :=
    List.filter_eq_self.mpr (by intro p hp; simp [chunkOf])
  rw [h, withIdx_map_snd]

theorem chunks_join_none (g : List α) :
    ((chunkKeys none g.length).map (chunkRows none g)).flatten = g := by
  cases g with
  | nil => rw [List.length_nil, chunkKeys_len_zero]; rfl
  | cons a t =>
    rw [chunkKeys_none_single _ (by simp)]
    simp [chunkRows_none_all]

theorem chunks_join_some_aux (n : Nat) (hn : 0 < n) :
    ∀ (m : Nat) (g : List α), g.length ≤ m →
      ((chunkKeys (some n) g.length).map (chunkRows (some n) g)).flatten = g := by
  intro m
  induction m with
  | zero =>
    intro g hg
    have hnil : g = [] := List.length_eq_zero.mp (Nat.le_zero.mp hg)
    subst hnil
    rw [List.length_nil, chunkKeys_len_zero]
    rfl
  | succ m ih =>
    intro g hg
    by_cases h0 : g.length = 0
    · have hnil : g = [] := List.length_eq_zero.mp h0
      subst hnil
      rw [List.length_nil, chunkKeys_len_zero]
      rfl
    rcases Nat.le_total g.length n with hle | hge
    · have hk : chunkKeys (some n) g.length = [0] := by
        rw [chunkKeys_range n hn _ (by omega)]
        have : (g.length - 1) / n = 0 := Nat.div_eq_of_lt (by omega)
        rw [this, show List.range (0 + 1) = [0] from rfl]
      have hr : chunkRows (some n) g 0 = g := by
        rw [chunkRows_zero_take n hn]
        exact List.take_of_length_le hle
      rw [hk]
      simp [hr]
    · by_cases heq : g.length = n
      · -- exactly one full chunk
        have hk : chunkKeys (some n) g.length = [0] := by
          rw [chunkKeys_range n hn _ (by omega)]
          have : (g.length - 1) / n = 0 := Nat.div_eq_of_lt (by omega)
          rw [this, show List.range (0 + 1) = [0] from rfl]
        have hr : chunkRows (some n) g 0 = g := by
          rw [chunkRows_zero_take n hn]
          exact List.take_of_length_le (by omega)
        rw [hk]
        simp [hr]
      · have hlt : n < g.length := by omega
        have hdroplen : (g.drop n).length = g.length - n := List.length_drop n g
        have hkeys : chunkKeys (some n) g.length
            = 0 :: (chunkKeys (some n) (g.drop n).length).map (· + 1) := by
          rw [chunkKeys_range n hn _ (by omega),
              chunkKeys_range n hn _ (by rw [hdroplen]; omega), hdroplen]
          have harith : (g.length - 1) / n = (g.length - n - 1) / n + 1 := by
            have h1 : n ≤ g.length - 1 := by omega
            rw [Nat.div_eq_sub_div hn h1, show g.length - 1 - n = g.length - n - 1 by omega]
          rw [harith, List.range_succ_eq_map]
        rw [hkeys, List.map_cons, List.flatten_cons, chunkRows_zero_take n hn, List.map_map]
        have hmap : (chunkKeys (some n) (g.drop n).length).map (chunkRows (some n) g ∘ (· + 1))
            = (chunkKeys (some n) (g.drop n).length).map (chunkRows (some n) (g.drop n)) :=
          List.map_congr_left (fun c _ => by
            simp only [Function.comp_apply]
            exact chunkRows_succ_drop n hn g c)
        rw [hmap, ih (g.drop n) (by rw [hdroplen]; omega)]
        exact List.take_append_drop n g

theorem chunks_join_some (n : Nat) (hn : 0 < n) (g : List α) :
    ((chunkKeys (some n) g.length).map (chunkRows (some n) g)).flatten = g :=
  chunks_join_some_aux n hn g.length g le_rfl

/-- C6.  Chunk assignment is `idx div page_size` (all rows in chunk 0 when the
page size is unset); concatenating the chunks in groupby order, each chunk in
its own order (the chunk-local 0-based reindex), reproduces the group's
pre-chunk corpus order; and a 120-row group at page size 50 yields chunks of
50, 50 and 20 rows, the last reindexed 0..19. -/
theorem chunking_reproduces_group_order (g : List Row) (n : Nat) (hn : 0 < n) :
    (∀ i : Nat, chunkOf none i = 0) ∧
    (∀ i : Nat, chunkOf (some n) i = i / n) ∧
    ((chunkKeys none g.length).map (chunkRows none g)).flatten = g ∧
    ((chunkKeys (some n) g.length).map (chunkRows (some n) g)).flatten = g ∧
    chunkKeys (some 50) 120 = [0, 1, 2] ∧
    (chunkRows (some 50) (sampleRowsC6 120) 0).length = 50 ∧
    (chunkRows (some 50) (sampleRowsC6 120) 1).length = 50 ∧
    (chunkRows (some 50) (sampleRowsC6 120) 2).length = 20 ∧
    (rebaseIdx (chunkRows (some 50) (sampleRowsC6 120) 2)).map (fun r => rlookup "idx" r)
      = (List.range 20).map (fun i => some (Value.nat i)) :=
  ⟨fun _ => rfl, fun _ => rfl, chunks_join_none g, chunks_join_some n hn g,
   by decide, by decide, by decide, by decide, by decide⟩

theorem chunking_reproduces_group_order_witness :
    0 < 2 ∧
    ((chunkKeys (some 2) (sampleRowsC6 5).length).map (chunkRows (some 2) (sampleRowsC6 5))).flatten
      = sampleRowsC6 5 :=
  ⟨by decide, (chunking_reproduces_group_order (sampleRowsC6 5) 2 (by decide)).2.2.2.1⟩

end FPGR

namespace FPGR

/-! ## Run-title resolution lemmas (C7) -/

theorem uniqueRetrieval_two (t1 t2 : Dom) (ts : List Dom) (a b : String) :
    uniqueRetrieval (t1 :: t2 :: ts) a b = .error s!"{a} has more than one {b}." := by
  unfold uniqueRetrieval
  have h : (t1 :: t2 :: ts).length > 1 := by simp
  rw [if_pos h]

theorem runTitlePart_eq (row2 : Row) (prev : Option String) (l : List Dom) (eid : String) :
    runTitlePart row2 prev l eid =
      (rset row2 "run_title" (toTitleVal (match uniqueTitleOf l with
        | some t => some t
        | none => prev)),
       match uniqueTitleOf l with
       | some t => some t
       | none => prev) := by
  rcases l with _ | ⟨t1, _ | ⟨t2, ts⟩⟩
  · rfl
  · rfl
  · unfold runTitlePart
    rw [uniqueRetrieval_two]
    rfl

theorem rlookup_setCaption_ne (row : Row) (ecs : List Dom) (eid : String) (sibs : List Dom)
    (k : String) (h : k ≠ "elem_caption") :
    rlookup k (setCaption row ecs eid sibs) = rlookup k row := by
  unfold setCaption
  cases uniqueRetrieval ecs eid "elem-caption" with
  | ok t => exact rlookup_rset_ne _ _ _ _ (fun he => h he.symm)
  | error e =>
    cases captionScan sibs none with
    | none => rfl
    | some t => exact rlookup_rset_ne _ _ _ _ (fun he => h he.symm)

theorem parseFig_run_title (pe : String → Row) (prev : Option String) (c : FigCtx) :
    rlookup "run_title" (parseFig pe prev c).1 = some (toTitleVal (titleStep prev c)) ∧
    (parseFig pe prev c).2 = titleStep prev c := by
  unfold titleStep runTitleUnique
  simp only [parseFig, runTitlePart_eq]
  constructor
  · rw [rlookup_setCaption_ne _ _ _ _ _ (by decide), rlookup_rset_self]
  · trivial

theorem parseLoop_run_title (pe : String → Row) :
    ∀ (ctxs : List FigCtx) (prev : Option String) (k : Nat), k < ctxs.length →
      rlookup "run_title" ((parseLoop pe prev ctxs).getD k []) =
        some (toTitleVal (titleStep (lastUniqueTitle prev (ctxs.take k)) (ctxs.getD k dummyCtx))) := by
  intro ctxs
  induction ctxs with
  | nil => intro prev k hk; simp at hk
  | cons c rest ih =>
    intro prev k hk
    rcases k with _ | k
    · simp only [parseLoop, List.getD_cons_zero, List.take_zero, lastUniqueTitle, List.foldl_nil]
      exact (parseFig_run_title pe prev c).1
    · simp only [parseLoop, List.getD_cons_succ, List.take_succ_cons, lastUniqueTitle,
        List.foldl_cons]
      rw [(parseFig_run_title pe prev c).2]
      exact ih (titleStep prev c) k (by simpa using hk)

/-- C7.  Run-title resolution: an element whose parent holds exactly one
`h3.run-title` heading gets that heading's text; an element whose parent
holds zero or several reuses the most recently remembered default — the
resolved title of the nearest preceding element with a unique heading, and
NaN when no such element precedes it. -/
theorem run_title_resolution (pe : String → Row) (ctxs : List FigCtx) (k : Nat)
    (hk : k < ctxs.length) :
    (∀ t : Dom, findDesc "h3" "run-title" (ctxs.getD k dummyCtx).parent = [t] →
        rlookup "run_title" ((parseLoop pe none ctxs).getD k []) = some (Value.str t.innerText)) ∧
    ((findDesc "h3" "run-title" (ctxs.getD k dummyCtx).parent).length ≠ 1 →
        rlookup "run_title" ((parseLoop pe none ctxs).getD k []) =
          some (toTitleVal (lastUniqueTitle none (ctxs.take k)))) := by
  have h := parseLoop_run_title pe ctxs none k hk
  constructor
  · intro t ht
    rw [h]
    unfold titleStep runTitleUnique uniqueTitleOf
    rw [ht]
    rfl
  · intro hne
    rw [h]
    have hu : runTitleUnique (ctxs.getD k dummyCtx) = none := by
      unfold runTitleUnique uniqueTitleOf
      rcases hfd : findDesc "h3" "run-title" (ctxs.getD k dummyCtx).parent with _ | ⟨t1, _ | ⟨t2, ts⟩⟩
      · rfl
      · exact absurd (by rw [hfd]; simp) hne
      · rfl
    unfold titleStep
    rw [hu]

theorem run_title_resolution_witness :
    (1 < ctxsC7.length ∧
      (findDesc "h3" "run-title" (ctxsC7.getD 1 dummyCtx).parent).length ≠ 1) ∧
    rlookup "run_title" ((parseLoop (fun _ => ([] : Row)) none ctxsC7).getD 1 []) =
      some (toTitleVal (lastUniqueTitle none (ctxsC7.take 1))) ∧
    toTitleVal (lastUniqueTitle none (ctxsC7.take 1)) = Value.str "Run A" :=
  ⟨⟨by decide, by decide⟩,
   (run_title_resolution (fun _ => ([] : Row)) ctxsC7 1 (by decide)).2 (by decide),
   by decide⟩

end FPGR

namespace FPGR

/-! ## Caption fallback (C4) -/

/-- The previous-sibling caption scan is dead code: with `'html.parser'`,
`prev.get('class', '')` is a list of class names whenever `has_attr('class')`
holds, so the Python comparison with the string `'elem-caption'` is always
`False` and the loop never assigns. -/
theorem captionScan_never_assigns :
    ∀ (sibs : List Dom) (acc : Option String), captionScan sibs acc = acc := by
  intro sibs
  induction sibs with
  | nil => intro acc; rfl
  | cons prev rest ih =>
    intro acc
    have hcond : (prev.isTag && prev.hasClassAttr
        && pyEq (prev.getClassAttr (.pstr "")) (.pstr "elem-caption")) = false := by
      cases prev with
      | textNode s => rfl
      | tag nm cls attrs ch =>
        cases cls with
        | none => rfl
        | some cs => rfl
    simp [captionScan, hcond, ih]

/-- C4 (code-bug evidence).  In `docC4` the figure's parent holds two
`p.elem-caption` nodes, so the parent lookup is ambiguous and the fallback
sibling scan runs over siblings that do carry the caption marker class
(nearest first: "second caption", then "first caption") — yet the parsed row
keeps a null caption, because the scan's class comparison never matches (and
the scan never aborts the parse). -/
theorem caption_sibling_fallback_never_matches :
    (findDesc "p" "elem-caption" ((collectFigs docC4).getD 0 dummyCtx).parent).length = 2 ∧
    ((((collectFigs docC4).getD 0 dummyCtx).prevSiblings.filter
        (fun d => d.isTag && d.classesOf.contains "elem-caption")).map Dom.innerText
      = ["second caption", "first caption"]) ∧
    (parseReportRows (fun _ => ([] : Row)) docC4).map (rlookup "elem_caption") = [none] ∧
    (∀ (sibs : List Dom) (acc : Option String), captionScan sibs acc = acc) :=
  ⟨by decide, by decide, by decide, captionScan_never_assigns⟩

/-! ## Silent dropping of unclassified rows (C1) -/

/-- C1 (code-bug evidence).  `rowBadC1` (no `desc`, `suffix ≠ 'dseg'`, no
`space`) keeps a NaN `report_type`; `groupby('report_type')` drops the NaN
key, so the run completes without error, renders only the `reconall` group,
and the row reaches no consolidated report — nothing aborts. -/
theorem null_report_type_row_silently_dropped :
    reportType rowBadC1 = Value.nan ∧
    rowBadC1 ∈ corpusOf [subjectC1] ∧
    groupValuesOf (corpusOf [subjectC1]) = [Value.str "reconall"] ∧
    makeReport fsC1 ["fmriprep"] (some 50) none [] [] [] [subjectC1] =
      ([Event.mkdir ["fmriprep", "group"],
        Event.writeFile ["fmriprep", "group", "dataset_description.json"],
        Event.mkdir ["fmriprep", "group", "sub-01"],
        Event.symlink ["..", "..", "sub-01", "figures"] ["fmriprep", "group", "sub-01", "figures"],
        Event.writeFile ["fmriprep", "group", "consolidated_reconall_000.html"]], none) :=
  ⟨by decide, by decide, by decide, by decide⟩

/-! ## Missing inferred figures directory (C2) -/

/-- C2 (code-bug evidence).  With no figures-path template and
`fmriprep/sub-01/figures` absent, the run does not abort: the
`FileNotFoundError` is constructed but never raised, the subject's group-tree
entry is still created (a dangling symlink), and the run completes. -/
theorem missing_inferred_figures_dir_does_not_abort :
    (¬ existsP fsC2 ["fmriprep", "sub-01", "figures"]) ∧
    makeReport fsC2 ["fmriprep"] (some 50) none [] [] [] [subjectC2] =
      ([Event.mkdir ["fmriprep", "group"],
        Event.writeFile ["fmriprep", "group", "dataset_description.json"],
        Event.mkdir ["fmriprep", "group", "sub-01"],
        Event.symlink ["..", "..", "sub-01", "figures"] ["fmriprep", "group", "sub-01", "figures"],
        Event.writeFile ["fmriprep", "group", "consolidated_reconall_000.html"]], none) :=
  ⟨by decide, by decide⟩

/-! ## Only HTML files are written per chunk (C3) -/

/-- C3 (counterexample).  A successful run over a one-group, one-chunk corpus
writes `consolidated_reconall_000.html` but writes no
`consolidated_reconall_000.tsv` — the TSV name is only referenced inside the
page head as a client-side download target. -/
theorem consolidated_tsv_not_emitted :
    (makeReport fsC3 ["fmriprep"] (some 50) none [] [] [] [subjectC3]).2 = none ∧
    groupValuesOf (corpusOf [subjectC3]) = [Value.str "reconall"] ∧
    chunkKeys (some 50) (groupRowsOf (corpusOf [subjectC3]) (Value.str "reconall")).length = [0] ∧
    Event.writeFile ["fmriprep", "group", "consolidated_reconall_000.html"]
      ∈ (makeReport fsC3 ["fmriprep"] (some 50) none [] [] [] [subjectC3]).1 ∧
    Event.writeFile ["fmriprep", "group", "consolidated_reconall_000.tsv"]
      ∉ (makeReport fsC3 ["fmriprep"] (some 50) none [] [] [] [subjectC3]).1 :=
  ⟨by decide, by decide, by decide, by decide, by decide⟩

end FPGR

namespace FPGR

/-! ## Which events write files (C3) -/

theorem mutatePhase_no_write (fs : FS) (gd : Path') (f df db : List String) (label : String) :
    ∀ (rows : List Row) (p : Path'),
      Event.writeFile p ∉ (mutatePhase fs gd f df db label rows).1 := by
  intro rows
  induction rows with
  | nil => intro p hp; simp [mutatePhase] at hp
  | cons r rest ih =>
    intro p hp
    simp only [mutatePhase] at hp
    split_ifs at hp
    all_goals
      first
      | (simp at hp; done)
      | (rcases List.mem_cons.mp hp with hp | hp
         · simp at hp
         · exact ih p hp)

theorem renderGroupMut_no_write (fs : FS) (gd : Path') (ic : Bool) (f db df : List String)
    (label : String) (rows : List Row) :
    ∀ p, Event.writeFile p ∉ (renderGroupMut fs gd ic f db df label rows).1 := by
  intro p hp
  unfold renderGroupMut at hp
  split_ifs at hp
  · exact mutatePhase_no_write fs gd f df db label rows p hp
  · simp at hp

theorem processSubject_no_write (fs : FS) (op gd : Path') (ptf : Option String) (ic : Bool)
    (s : SubjectInput) :
    ∀ p, Event.writeFile p ∉ (processSubject fs op gd ptf ic s).events := by
  intro p hp
  cases ptf with
  | none =>
    simp only [processSubject, finishLink] at hp
    split_ifs at hp <;> simp at hp
  | some tpl =>
    simp only [processSubject, finishLink] at hp
    split_ifs at hp <;> simp at hp

theorem runSubjects_no_write (op gd : Path') (ptf : Option String) (ic : Bool) :
    ∀ (subs : List SubjectInput) (fs : FS) (p : Path'),
      Event.writeFile p ∉ (runSubjects fs op gd ptf ic subs).events := by
  intro subs
  induction subs with
  | nil => intro fs p hp; simp [runSubjects] at hp
  | cons s rest ih =>
    intro fs p hp
    simp only [runSubjects] at hp
    cases hr : (processSubject fs op gd ptf ic s).err with
    | some e =>
      rw [hr] at hp
      exact processSubject_no_write fs op gd ptf ic s p hp
    | none =>
      rw [hr] at hp
      simp only [List.mem_append] at hp
      rcases hp with hp | hp
      · exact processSubject_no_write fs op gd ptf ic s p hp
      · exact ih _ p hp

theorem renderGroup_writes_mem (fs : FS) (gd : Path') (ps : Option Nat) (ic : Bool)
    (f db df : List String) (v : Value) (rows : List Row)
    (h : (renderGroup fs gd ps ic f db df v rows).2 = none) :
    ∀ c ∈ chunkKeys ps rows.length,
      Event.writeFile (gd ++ [consolidatedName v.label c])
        ∈ (renderGroup fs gd ps ic f db df v rows).1 := by
  intro c hc
  simp only [renderGroup] at h ⊢
  cases hm : (renderGroupMut fs gd ic f db df v.label rows).2 with
  | some e => rw [hm] at h; simp at h
  | none =>
    exact List.mem_append_right _ (List.mem_map.mpr ⟨c, hc, rfl⟩)

theorem renderGroup_writes_only (fs : FS) (gd : Path') (ps : Option Nat) (ic : Bool)
    (f db df : List String) (v : Value) (rows : List Row) :
    ∀ p, Event.writeFile p ∈ (renderGroup fs gd ps ic f db df v rows).1 →
      ∃ c ∈ chunkKeys ps rows.length, p = gd ++ [consolidatedName v.label c] := by
  intro p hp
  simp only [renderGroup] at hp
  cases hm : (renderGroupMut fs gd ic f db df v.label rows).2 with
  | some e =>
    rw [hm] at hp
    exact absurd hp (renderGroupMut_no_write fs gd ic f db df v.label rows p)
  | none =>
    rw [hm] at hp
    rcases List.mem_append.mp hp with hp | hp
    · exact absurd hp (renderGroupMut_no_write fs gd ic f db df v.label rows p)
    · rcases List.mem_map.mp hp with ⟨c, hc, hceq⟩
      exact ⟨c, hc, ((Event.writeFile.injEq _ _).mp hceq).symm⟩

theorem renderGroups_complete (fs : FS) (gd : Path') (ps : Option Nat) (ic : Bool)
    (f db df : List String) (corpus : List Row) :
    ∀ (vs : List Value), (renderGroups fs gd ps ic f db df corpus vs).2 = none →
      ∀ v ∈ vs, ∀ c ∈ chunkKeys ps (groupRowsOf corpus v).length,
        Event.writeFile (gd ++ [consolidatedName v.label c])
          ∈ (renderGroups fs gd ps ic f db df corpus vs).1 := by
  intro vs
  induction vs with
  | nil => intro h v hv; simp at hv
  | cons v vs ih =>
    intro h w hw c hc
    simp only [renderGroups] at h ⊢
    cases hg : (renderGroup fs gd ps ic f db df v (groupRowsOf corpus v)).2 with
    | some e => rw [hg] at h; simp at h
    | none =>
      rw [hg] at h
      rcases List.mem_cons.mp hw with rfl | hw
      · exact List.mem_append_left _ (renderGroup_writes_mem fs gd ps ic f db df w _ hg c hc)
      · exact List.mem_append_right _ (ih h w hw c hc)

theorem renderGroups_writes_only (fs : FS) (gd : Path') (ps : Option Nat) (ic : Bool)
    (f db df : List String) (corpus : List Row) :
    ∀ (vs : List Value) (p : Path'),
      Event.writeFile p ∈ (renderGroups fs gd ps ic f db df corpus vs).1 →
      ∃ v ∈ vs, ∃ c ∈ chunkKeys ps (groupRowsOf corpus v).length,
        p = gd ++ [consolidatedName v.label c] := by
  intro vs
  induction vs with
  | nil => intro p hp; simp [renderGroups] at hp
  | cons v vs ih =>
    intro p hp
    simp only [renderGroups] at hp
    cases hg : (renderGroup fs gd ps ic f db df v (groupRowsOf corpus v)).2 with
    | some e =>
      rw [hg] at hp
      rcases renderGroup_writes_only fs gd ps ic f db df v _ p hp with ⟨c, hc, hceq⟩
      exact ⟨v, List.mem_cons_self v vs, c, hc, hceq⟩
    | none =>
      rw [hg] at hp
      rcases List.mem_append.mp hp with hp | hp
      · rcases renderGroup_writes_only fs gd ps ic f db df v _ p hp with ⟨c, hc, hceq⟩
        exact ⟨v, List.mem_cons_self v vs, c, hc, hceq⟩
      · rcases ih p hp with ⟨w, hw, c, hc, hceq⟩
        exact ⟨w, List.mem_cons_of_mem v hw, c, hc, hceq⟩

theorem makeReport_eq_err (fs : FS) (outP : Path') (ps : Option Nat) (ptf : Option String)
    (f db df : List String) (subjects : List SubjectInput) (e : String)
    (h : checkImageChanges f db df = Except.error e) :
    makeReport fs outP ps ptf f db df subjects = ([], some e) := by
  simp only [makeReport]
  rw [h]

theorem makeReport_eq_ok (fs : FS) (outP : Path') (ps : Option Nat) (ptf : Option String)
    (f db df : List String) (ic : Bool) (subjects : List SubjectInput)
    (h : checkImageChanges f db df = Except.ok ic) :
    makeReport fs outP ps ptf f db df subjects =
      makeReportOk fs outP ps ptf f db df ic subjects := by
  simp only [makeReport]
  rw [h]

theorem makeReportOk_eq_some (fs : FS) (outP : Path') (ps : Option Nat) (ptf : Option String)
    (f db df : List String) (ic : Bool) (subjects : List SubjectInput) (e : String)
    (h : (runSubjects (preFS fs outP) outP (outP ++ ["group"]) ptf ic
        (discoveredSubjects subjects)).err = some e) :
    makeReportOk fs outP ps ptf f db df ic subjects =
      (preEvents outP ++ (runSubjects (preFS fs outP) outP (outP ++ ["group"]) ptf ic
        (discoveredSubjects subjects)).events, some e) := by
  simp only [makeReportOk]
  rw [h]

theorem makeReportOk_eq_none (fs : FS) (outP : Path') (ps : Option Nat) (ptf : Option String)
    (f db df : List String) (ic : Bool) (subjects : List SubjectInput)
    (h : (runSubjects (preFS fs outP) outP (outP ++ ["group"]) ptf ic
        (discoveredSubjects subjects)).err = none) :
    makeReportOk fs outP ps ptf f db df ic subjects =
      (preEvents outP ++ (runSubjects (preFS fs outP) outP (outP ++ ["group"]) ptf ic
          (discoveredSubjects subjects)).events ++
        (renderGroups (runSubjects (preFS fs outP) outP (outP ++ ["group"]) ptf ic
            (discoveredSubjects subjects)).fs
          (outP ++ ["group"]) ps ic f db df (corpusOf subjects)
          (groupValuesOf (corpusOf subjects))).1,
       (renderGroups (runSubjects (preFS fs outP) outP (outP ++ ["group"]) ptf ic
            (discoveredSubjects subjects)).fs
          (outP ++ ["group"]) ps ic f db df (corpusOf subjects)
          (groupValuesOf (corpusOf subjects))).2) := by
  simp only [makeReportOk]
  rw [h]

/-- C3 (amended).  A run that completes writes, per (report_type, chunk) pair
of the grouped corpus, exactly the consolidated HTML document
`consolidated_{report_type}_{chunk:03d}.html`; the only other file the run
writes is `group/dataset_description.json` — in particular no
`consolidated_{report_type}_{chunk:03d}.tsv` is emitted (the TSV name is only
embedded in the HTML head as the client-side download target). -/
theorem consolidated_html_emission (fs : FS) (outP : Path') (ps : Option Nat)
    (ptf : Option String) (f db df : List String) (subjects : List SubjectInput)
    (hok : (makeReport fs outP ps ptf f db df subjects).2 = none) :
    (∀ v ∈ groupValuesOf (corpusOf subjects),
      ∀ c ∈ chunkKeys ps (groupRowsOf (corpusOf subjects) v).length,
        Event.writeFile (outP ++ ["group"] ++ [consolidatedName v.label c])
          ∈ (makeReport fs outP ps ptf f db df subjects).1) ∧
    (∀ p, Event.writeFile p ∈ (makeReport fs outP ps ptf f db df subjects).1 →
        p = outP ++ ["group"] ++ ["dataset_description.json"] ∨
        ∃ v ∈ groupValuesOf (corpusOf subjects),
          ∃ c ∈ chunkKeys ps (groupRowsOf (corpusOf subjects) v).length,
            p = outP ++ ["group"] ++ [consolidatedName v.label c]) := by
  cases hc : checkImageChanges f db df with
  | error e =>
    rw [makeReport_eq_err fs outP ps ptf f db df subjects e hc] at hok
    simp at hok
  | ok ic =>
    rw [makeReport_eq_ok fs outP ps ptf f db df ic subjects hc] at hok ⊢
    cases hr : (runSubjects (preFS fs outP) outP (outP ++ ["group"]) ptf ic
        (discoveredSubjects subjects)).err with
    | some e =>
      rw [makeReportOk_eq_some fs outP ps ptf f db df ic subjects e hr] at hok
      simp at hok
    | none =>
      rw [makeReportOk_eq_none fs outP ps ptf f db df ic subjects hr] at hok ⊢
      replace hok : (renderGroups (runSubjects (preFS fs outP) outP (outP ++ ["group"]) ptf ic
          (discoveredSubjects subjects)).fs
        (outP ++ ["group"]) ps ic f db df (corpusOf subjects)
        (groupValuesOf (corpusOf subjects))).2 = none := hok
      constructor
      · intro v hv c hc'
        exact List.mem_append_right _
          (renderGroups_complete _ _ ps ic f db df (corpusOf subjects) _ hok v hv c hc')
      · intro p hp
        rcases List.mem_append.mp hp with hp | hp
        · rcases List.mem_append.mp hp with hp | hp
          · left
            rcases List.mem_cons.mp hp with hp | hp
            · simp at hp
            · rcases List.mem_cons.mp hp with hp | hp
              · exact (Event.writeFile.injEq _ _).mp hp
              · simp at hp
          · exact absurd hp (runSubjects_no_write outP (outP ++ ["group"]) ptf ic _ _ p)
        · right
          exact renderGroups_writes_only _ _ ps ic f db df (corpusOf subjects) _ p hp

theorem consolidated_html_emission_witness :
    ((makeReport fsC3 ["fmriprep"] (some 50) none [] [] [] [subjectC3]).2 = none) ∧
    ((∀ v ∈ groupValuesOf (corpusOf [subjectC3]),
      ∀ c ∈ chunkKeys (some 50) (groupRowsOf (corpusOf [subjectC3]) v).length,
        Event.writeFile (["fmriprep"] ++ ["group"] ++ [consolidatedName v.label c])
          ∈ (makeReport fsC3 ["fmriprep"] (some 50) none [] [] [] [subjectC3]).1) ∧
    (∀ p, Event.writeFile p ∈ (makeReport fsC3 ["fmriprep"] (some 50) none [] [] [] [subjectC3]).1 →
        p = ["fmriprep"] ++ ["group"] ++ ["dataset_description.json"] ∨
        ∃ v ∈ groupValuesOf (corpusOf [subjectC3]),
          ∃ c ∈ chunkKeys (some 50) (groupRowsOf (corpusOf [subjectC3]) v).length,
            p = ["fmriprep"] ++ ["group"] ++ [consolidatedName v.label c])) :=
  ⟨by decide,
   consolidated_html_emission fsC3 ["fmriprep"] (some 50) none [] [] [] [subjectC3] (by decide)⟩

end FPGR

namespace FPGR

/-! ## Mutation-set validation (C8) -/

theorem inter_not_isEmpty_of_mem {x : String} {l₁ l₂ : List String}
    (h1 : x ∈ l₁) (h2 : x ∈ l₂) : ¬(l₁.inter l₂).isEmpty = true := by
  intro h
  rw [List.isEmpty_iff] at h
  have hx : x ∈ l₁.inter l₂ := List.mem_inter_of_mem_of_mem h1 h2
  rw [h] at hx
  simp at hx

theorem checkImageChanges_error_of_overlap (flip dropBg dropFg : List String) (x : String)
    (hx : (x ∈ flip ∧ x ∈ dropFg) ∨ (x ∈ flip ∧ x ∈ dropBg) ∨ (x ∈ dropFg ∧ x ∈ dropBg)) :
    ∃ e, checkImageChanges flip dropBg dropFg = Except.error e := by
  have h0 : ¬(flip.isEmpty && dropBg.isEmpty && dropFg.isEmpty) = true := by
    intro hemp
    simp only [Bool.and_eq_true, List.isEmpty_iff] at hemp
    rcases hemp with ⟨⟨hf, hb⟩, hg⟩
    subst hf; subst hb; subst hg
    rcases hx with ⟨h1, _⟩ | ⟨h1, _⟩ | ⟨h1, _⟩ <;> simp at h1
  unfold checkImageChanges
  rw [if_neg h0]
  by_cases hFG : (flip.inter dropFg).isEmpty = true
  · by_cases hFB : (flip.inter dropBg).isEmpty = true
    · have hGB : ¬(dropFg.inter dropBg).isEmpty = true := by
        rcases hx with ⟨h1, h2⟩ | ⟨h1, h2⟩ | ⟨h1, h2⟩
        · exact absurd hFG (inter_not_isEmpty_of_mem h1 h2)
        · exact absurd hFB (inter_not_isEmpty_of_mem h1 h2)
        · exact inter_not_isEmpty_of_mem h1 h2
      rw [if_neg (by simp [hFG]), if_neg (by simp [hFB]),
        if_pos (by simpa using hGB)]
      exact ⟨_, rfl⟩
    · rw [if_neg (by simp [hFG]), if_pos (by simpa using hFB)]
      exact ⟨_, rfl⟩
  · rw [if_pos (by simpa using hFG)]
    exact ⟨_, rfl⟩

/-- C8.  If any report-type name sits in two of the three mutation sets,
`make_report` raises the configuration error before any event touches the
output tree (the whole run is the error alone); pairwise-disjoint sets pass
the validation. -/
theorem mutation_sets_validated_before_io (flip_images drop_background drop_foreground :
    List String) :
    ((∃ x, (x ∈ flip_images ∧ x ∈ drop_foreground) ∨
           (x ∈ flip_images ∧ x ∈ drop_background) ∨
           (x ∈ drop_foreground ∧ x ∈ drop_background)) →
      ∃ e, checkImageChanges flip_images drop_background drop_foreground = Except.error e ∧
        ∀ (fs : FS) (outP : Path') (ps : Option Nat) (ptf : Option String)
          (subjects : List SubjectInput),
          makeReport fs outP ps ptf flip_images drop_background drop_foreground subjects
            = ([], some e)) ∧
    ((flip_images.inter drop_foreground = [] ∧ flip_images.inter drop_background = [] ∧
        drop_foreground.inter drop_background = []) →
      ∃ b, checkImageChanges flip_images drop_background drop_foreground = Except.ok b) := by
  constructor
  · rintro ⟨x, hx⟩
    rcases checkImageChanges_error_of_overlap flip_images drop_background drop_foreground x hx
      with ⟨e, he⟩
    exact ⟨e, he, fun fs outP ps ptf subjects =>
      makeReport_eq_err fs outP ps ptf flip_images drop_background drop_foreground subjects e he⟩
  · rintro ⟨h1, h2, h3⟩
    unfold checkImageChanges
    by_cases h0 : (flip_images.isEmpty && drop_background.isEmpty && drop_foreground.isEmpty) = true
    · rw [if_pos h0]
      exact ⟨false, rfl⟩
    · rw [if_neg h0, if_neg (by simp [h1]), if_neg (by simp [h2]), if_neg (by simp [h3])]
      exact ⟨true, rfl⟩

theorem mutation_sets_validated_before_io_witness :
    ((∃ e, checkImageChanges ["pepolar"] ["pepolar"] [] = Except.error e ∧
      ∀ (fs : FS) (outP : Path') (ps : Option Nat) (ptf : Option String)
        (subjects : List SubjectInput),
        makeReport fs outP ps ptf ["pepolar"] ["pepolar"] [] subjects = ([], some e))) ∧
    (∃ b, checkImageChanges ["reconall"] ["dseg"] ["pepolar"] = Except.ok b) :=
  ⟨(mutation_sets_validated_before_io ["pepolar"] ["pepolar"] []).1
     ⟨"pepolar", Or.inr (Or.inl ⟨by decide, by decide⟩)⟩,
   (mutation_sets_validated_before_io ["reconall"] ["dseg"] ["pepolar"]).2
     ⟨by decide, by decide, by decide⟩⟩

end FPGR

namespace FPGR

/-! ## Existing figures entry aborts the run (C9, C10) -/

theorem entry_check_lift (fs : FS) (extra : List Path') (p : Path')
    (h : isLink fs p ∨ existsP fs p) :
    isLink { fs with files := fs.files ++ extra } p ∨
      existsP { fs with files := fs.files ++ extra } p := by
  rcases h with h | h
  · exact Or.inl h
  · exact Or.inr (List.mem_append_left extra h)

/-- Lines 320–326: whatever the figure-resolution branch, an existing (or
symlinked) `group/sub-{subject}/figures` entry makes `processSubject` raise,
and the only event it has performed is the subject directory mkdir — the
entry is never replaced. -/
theorem processSubject_existing_entry_aborts (fs : FS) (op gd : Path') (ptf : Option String)
    (ic : Bool) (s : SubjectInput)
    (h : isLink fs ((gd ++ ["sub-" ++ s.subject]) ++ ["figures"]) ∨
         existsP fs ((gd ++ ["sub-" ++ s.subject]) ++ ["figures"])) :
    (processSubject fs op gd ptf ic s).err.isSome = true ∧
    (processSubject fs op gd ptf ic s).events = [Event.mkdir (gd ++ ["sub-" ++ s.subject])] := by
  have h' := entry_check_lift fs [normalize (gd ++ ["sub-" ++ s.subject])] _ h
  cases ptf with
  | none =>
    simp only [processSubject, finishLink]
    split_ifs
    all_goals exact ⟨rfl, rfl⟩
  | some tpl =>
    simp only [processSubject, finishLink]
    split_ifs
    all_goals exact ⟨rfl, rfl⟩

theorem makeReport_aborts_of_head_abort (fs : FS) (outP : Path') (ps : Option Nat)
    (ptf : Option String) (s : SubjectInput) (rest : List SubjectInput)
    (hs : s.reportPath.contains "figures" = false)
    (ha : (processSubject (preFS fs outP) outP (outP ++ ["group"]) ptf false s).err.isSome
      = true) :
    ∃ e, makeReport fs outP ps ptf [] [] [] (s :: rest)
      = (preEvents outP ++
          (processSubject (preFS fs outP) outP (outP ++ ["group"]) ptf false s).events,
         some e) := by
  have hok : checkImageChanges [] [] [] = Except.ok false := rfl
  rw [makeReport_eq_ok fs outP ps ptf [] [] [] false (s :: rest) hok]
  have hs' : "figures" ∉ s.reportPath := by simpa using hs
  have hds : discoveredSubjects (s :: rest) = s :: discoveredSubjects rest := by
    simp [discoveredSubjects, List.filter_cons, hs']
  cases he : (processSubject (preFS fs outP) outP (outP ++ ["group"]) ptf false s).err with
  | none => rw [he] at ha; simp at ha
  | some e =>
    have herr : (runSubjects (preFS fs outP) outP (outP ++ ["group"]) ptf false
        (discoveredSubjects (s :: rest))).err = some e := by
      rw [hds]
      simp only [runSubjects]
      rw [he]
    have hevs : (runSubjects (preFS fs outP) outP (outP ++ ["group"]) ptf false
        (discoveredSubjects (s :: rest))).events
        = (processSubject (preFS fs outP) outP (outP ++ ["group"]) ptf false s).events := by
      rw [hds]
      simp only [runSubjects]
      rw [he]
    refine ⟨e, ?_⟩
    rw [makeReportOk_eq_some fs outP ps ptf [] [] [] false (s :: rest) e herr, hevs]

/-- C9.  If the subject's figures entry in the Group Tree already exists —
including as a (possibly dangling) symlink — the subject step raises instead
of replacing it: its only event is the subject mkdir (no symlink, no copy,
no write), and the whole `make_report` run aborts. -/
theorem existing_figures_entry_aborts (fs : FS) (outP : Path') (ptf : Option String)
    (ic : Bool) (ps : Option Nat) (s : SubjectInput) (rest : List SubjectInput)
    (h : isLink fs (((outP ++ ["group"]) ++ ["sub-" ++ s.subject]) ++ ["figures"]) ∨
         existsP fs (((outP ++ ["group"]) ++ ["sub-" ++ s.subject]) ++ ["figures"]))
    (hs : s.reportPath.contains "figures" = false) :
    (processSubject fs outP (outP ++ ["group"]) ptf ic s).err.isSome = true ∧
    (processSubject fs outP (outP ++ ["group"]) ptf ic s).events
      = [Event.mkdir ((outP ++ ["group"]) ++ ["sub-" ++ s.subject])] ∧
    ((makeReport fs outP ps ptf [] [] [] (s :: rest)).2).isSome = true := by
  rcases processSubject_existing_entry_aborts fs outP (outP ++ ["group"]) ptf ic s h
    with ⟨h1, h2⟩
  refine ⟨h1, h2, ?_⟩
  have hpre := entry_check_lift fs
    [normalize (outP ++ ["group"]), normalize (outP ++ ["group"] ++ ["dataset_description.json"])]
    _ h
  rcases processSubject_existing_entry_aborts (preFS fs outP) outP (outP ++ ["group"]) ptf
    false s hpre with ⟨ha, _⟩
  rcases makeReport_aborts_of_head_abort fs outP ps ptf s rest hs ha with ⟨e, he⟩
  rw [he]
  rfl

theorem existing_figures_entry_aborts_witness :
    ((isLink fsC9 (((["fmriprep"] ++ ["group"]) ++ ["sub-" ++ subjectC9.subject]) ++ ["figures"]) ∨
      existsP fsC9 (((["fmriprep"] ++ ["group"]) ++ ["sub-" ++ subjectC9.subject]) ++ ["figures"])) ∧
     subjectC9.reportPath.contains "figures" = false) ∧
    ((processSubject fsC9 ["fmriprep"] (["fmriprep"] ++ ["group"]) none false subjectC9).err.isSome
        = true ∧
     (processSubject fsC9 ["fmriprep"] (["fmriprep"] ++ ["group"]) none false subjectC9).events
        = [Event.mkdir ((["fmriprep"] ++ ["group"]) ++ ["sub-" ++ subjectC9.subject])] ∧
     ((makeReport fsC9 ["fmriprep"] (some 50) none [] [] [] [subjectC9]).2).isSome = true) :=
  ⟨⟨by decide, by decide⟩,
   existing_figures_entry_aborts fsC9 ["fmriprep"] none false (some 50) subjectC9 []
     (by decide) (by decide)⟩

/-- C10.  `group/dataset_description.json` is written before the
duplicate-entry check runs: a run that aborts on an existing figures entry
has already recorded this run's parameters over the previous run's file. -/
theorem dataset_description_written_before_entry_check (fs : FS) (outP : Path')
    (ptf : Option String) (ps : Option Nat) (s : SubjectInput) (rest : List SubjectInput)
    (h : isLink fs (((outP ++ ["group"]) ++ ["sub-" ++ s.subject]) ++ ["figures"]) ∨
         existsP fs (((outP ++ ["group"]) ++ ["sub-" ++ s.subject]) ++ ["figures"]))
    (hs : s.reportPath.contains "figures" = false) :
    ((makeReport fs outP ps ptf [] [] [] (s :: rest)).2).isSome = true ∧
    Event.writeFile (outP ++ ["group"] ++ ["dataset_description.json"])
      ∈ (makeReport fs outP ps ptf [] [] [] (s :: rest)).1 := by
  have hpre := entry_check_lift fs
    [normalize (outP ++ ["group"]), normalize (outP ++ ["group"] ++ ["dataset_description.json"])]
    _ h
  rcases processSubject_existing_entry_aborts (preFS fs outP) outP (outP ++ ["group"]) ptf
    false s hpre with ⟨ha, _⟩
  rcases makeReport_aborts_of_head_abort fs outP ps ptf s rest hs ha with ⟨e, he⟩
  rw [he]
  constructor
  · rfl
  · exact List.mem_append_left _ (by simp [preEvents])

theorem dataset_description_written_before_entry_check_witness :
    ((isLink fsC10 (((["fmriprep"] ++ ["group"]) ++ ["sub-" ++ subjectC10.subject]) ++ ["figures"]) ∨
      existsP fsC10 (((["fmriprep"] ++ ["group"]) ++ ["sub-" ++ subjectC10.subject]) ++ ["figures"])) ∧
     subjectC10.reportPath.contains "figures" = false) ∧
    (((makeReport fsC10 ["fmriprep"] (some 50) none [] [] [] [subjectC10]).2).isSome = true ∧
     Event.writeFile (["fmriprep"] ++ ["group"] ++ ["dataset_description.json"])
       ∈ (makeReport fsC10 ["fmriprep"] (some 50) none [] [] [] [subjectC10]).1) :=
  ⟨⟨by decide, by decide⟩,
   dataset_description_written_before_entry_check fsC10 ["fmriprep"] none (some 50)
     subjectC10 [] (by decide) (by decide)⟩

end FPGR
